import Mathlib

/-!
Verification of the kqueen API view layer (`kqueen/blueprints/api/views.py`).

The file embeds the request handlers of the views module as Lean functions.
Objects (clusters, provisioners, users) are records; HTTP aborts are the
`Except.error` branch of an `Except` result; raising engine or model calls
are modelled by oracle parameters returning `Except` or a small outcome
inductive.  Collaborators that live outside the views module (the model
classes, the configuration values, the generic view base classes, the
password hash) are modelled from the specification and marked as such.
-/

/-- Modelled from the spec: configuration value for the Provisioning cluster
state (`config.get CLUSTER_PROVISIONING_STATE`); the config module is not
under src, the spec names the state `Provisioning`. -/
def CLUSTER_PROVISIONING_STATE : String := "Provisioning"

/-- Modelled from the spec: configuration value for the OK cluster state. -/
def CLUSTER_OK_STATE : String := "OK"

/-- Modelled from the spec: configuration value for the Updating cluster state. -/
def CLUSTER_UPDATING_STATE : String := "Updating"

/-- Modelled from the spec: configuration value for the Error cluster state. -/
def CLUSTER_ERROR_STATE : String := "Error"

/-- Modelled from the spec: configuration value for the Unknown cluster state. -/
def CLUSTER_UNKNOWN_STATE : String := "Unknown"

/-- Modelled from the spec: configuration value for the OK provisioner state. -/
def PROVISIONER_OK_STATE : String := "OK"

/-- A provisioner record: identity, name, engine identifier, creation stamp
and lifecycle state.  Timestamps and ids are opaque ordered values, states
are the configuration strings. -/
structure Provisioner where
  id : Nat
  name : String
  engine : String
  created_at : Nat
  state : String
deriving DecidableEq

/-- A cluster record: identity, name, creation stamp, lifecycle state and
the owning provisioner. -/
structure Cluster where
  id : Nat
  name : String
  created_at : Nat
  state : String
  provisioner : Provisioner
deriving DecidableEq

/-- An HTTP abort: status code plus description (empty when `abort` is called
with a bare code). -/
abbrev HttpAbort := Nat × String

/-- Modelled from the spec: `super().save_object()` of the generic
`CreateView` (generic_views is not under src) persists the constructed
object; persistence is modelled as appending to the stored collection. -/
def persistCluster (c : Cluster) (db : List Cluster) : List Cluster :=
  db ++ [c]

/-- `CreateCluster.save_object`: abort with 500 when the target provisioner
is not in the OK state, otherwise fall through to the generic save. -/
def CreateCluster.save_object (c : Cluster) (db : List Cluster) : Except HttpAbort (List Cluster) :=
  if c.provisioner.state ≠ PROVISIONER_OK_STATE then
    .error (500, "Cannot create cluster with malfunctioning Provisioner")
  else
    .ok (persistCluster c db)

/-- How a call into `engine.get_progress()` can end: a returned progress
descriptor (opaque payload), a NotImplementedError, or any other raise. -/
inductive GetProgressOutcome where
  | value (v : String)
  | raiseNotImplemented
  | raiseOther
deriving DecidableEq

/-- The degraded progress body substituted by the view: a `response` marker,
a zero progress and a `result` state. -/
structure ProgressSubstitute where
  response : Nat
  progress : Nat
  result : String
deriving DecidableEq

/-- Body of a progress reply: either the engine's own descriptor or the
view's substituted degraded body. -/
inductive ProgressReply where
  | fromEngine (v : String)
  | degraded (p : ProgressSubstitute)
deriving DecidableEq

/-- The `/clusters/(pk)/progress` handler.  `getProgress` is the outcome of
the engine call; `freshState` is the value produced by `obj.update_state()`
(modelled from the spec: the models module is not under src, a state refresh
yields the newly observed state).  The handler never aborts: every branch
returns a 200 reply. -/
def cluster_progress (getProgress : GetProgressOutcome) (freshState : String) :
    Except HttpAbort ProgressReply :=
  match getProgress with
  | .value v => .ok (.fromEngine v)
  | .raiseNotImplemented => .ok (.degraded ⟨501, 0, freshState⟩)
  | .raiseOther => .ok (.degraded ⟨500, 0, CLUSTER_UNKNOWN_STATE⟩)

/-- A request body as the view code sees it: either a JSON object (an
association list of string keys to opaque values) or some non-object JSON
value.  `Option` is `none` when no JSON body was sent. -/
inductive Jsonish where
  | obj (fields : List (String × String))
  | nonObject
deriving DecidableEq

/-- First binding of a key in a JSON object, mirroring dict lookup. -/
def lookupField (fields : List (String × String)) (k : String) : Option String :=
  (fields.find? (fun kv => kv.1 = k)).map (fun kv => kv.2)

/-- Does the request body parse to a JSON object containing `node_count`? -/
def hasNodeCount (body : Option Jsonish) : Bool :=
  match body with
  | some (.obj fields) => (lookupField fields "node_count").isSome
  | _ => false

/-- The `/clusters/(pk)/resize` handler.  Mirrors: abort 400 unless the body
is a dict containing `node_count`; otherwise call `engine.resize` with the
value, abort 500 with its message on reported failure, else return the
engine's cluster document.  The second component records whether the engine
call was reached. -/
def cluster_resize (body : Option Jsonish) (resize : String → Bool × String)
    (engineCluster : String) : Except HttpAbort String × Bool :=
  match body with
  | some (.obj fields) =>
    match lookupField fields "node_count" with
    | some v =>
      let r := resize v
      (if r.1 then .ok engineCluster else .error (500, r.2), true)
    | none => (.error (400, ""), false)
  | _ => (.error (400, ""), false)

/-- Fuel-driven floor of the base-2 logarithm; with fuel at least the input
this equals the bit length minus one for positive inputs. -/
def log2fuel : Nat → Nat → Nat
  | 0, _ => 0
  | fuel+1, n => if n ≥ 2 then log2fuel fuel (n / 2) + 1 else 0

/-- Floor of the base-2 logarithm of a positive natural number. -/
def ilog2 (n : Nat) : Nat := log2fuel n n

/-- An exact nonnegative fraction (not necessarily reduced); every quantity
in the health computation is nonnegative. -/
structure Frac where
  num : Nat
  den : Nat
deriving DecidableEq

/-- Multiply a fraction by an integer power of two, exactly. -/
def Frac.scalePow2 (x : Frac) (e : Int) : Frac :=
  if 0 ≤ e then ⟨x.num * 2 ^ e.toNat, x.den⟩ else ⟨x.num, x.den * 2 ^ (-e).toNat⟩

/-- Is the fraction strictly below the natural number `m`? -/
def Frac.ltNat (x : Frac) (m : Nat) : Bool := x.num < m * x.den

/-- Round a nonnegative fraction to the nearest integer, ties to even — the
IEEE 754 default rounding applied to the scaled significand. -/
def Frac.rndTiesEven (x : Frac) : Nat :=
  let f := x.num / x.den
  let r2 := 2 * (x.num % x.den)
  if r2 < x.den then f
  else if x.den < r2 then f + 1
  else if f % 2 = 0 then f else f + 1

/-- Round an exact nonnegative fraction to the nearest IEEE 754 binary64
value (53-bit significand, round to nearest, ties to even), returned as an
exact fraction.  The scaling exponent `e` is chosen so that `x * 2 ^ e` lies
in `[2 ^ 52, 2 ^ 53)`; inputs stay far away from overflow and subnormal
ranges.  Python's true division of two ints and its float multiplication
are correctly rounded, so each maps to one application of this function. -/
def floatRound (x : Frac) : Frac :=
  if x.num = 0 then ⟨0, 1⟩
  else
    let e0 : Int := 52 - ((ilog2 x.num : Int) - (ilog2 x.den : Int))
    let e : Int := if (x.scalePow2 e0).ltNat (2 ^ 52) then e0 + 1 else e0
    Frac.scalePow2 ⟨(x.scalePow2 e).rndTiesEven, 1⟩ (-e)

/-- Truncation of a nonnegative fraction, as Python `int()` on a
nonnegative float. -/
def Frac.floorNat (x : Frac) : Nat := x.num / x.den

/-- Exact product of a fraction with a natural number. -/
def Frac.times (x : Frac) (m : Nat) : Frac := ⟨x.num * m, x.den⟩

/-- The health percentage computed by the view:
`int((healthy_clusters / deployed_clusters) * 100)` guarded by
`if healthy_clusters and deployed_clusters`, with Python's float division
and multiplication embedded as correctly rounded binary64 operations on
exact fractions. -/
def pyHealthPercentage (healthy deployed : Nat) : Nat :=
  if healthy ≠ 0 ∧ deployed ≠ 0 then
    ((floatRound ⟨healthy, deployed⟩).times 100 |> floatRound).floorNat
  else 0

/-- Body of the aggregate health response. -/
structure HealthResponse where
  total : Nat
  healthy_percentage : Nat
deriving DecidableEq

/-- `GetClustersHealth.get_content`: count deployed (state differs from
Provisioning) and healthy (state Updating or OK) clusters and return the
total together with the percentage computation of the source. -/
def GetClustersHealth.get_content (clusters : List Cluster) : HealthResponse :=
  let deployed_clusters := clusters.countP (fun c => !(c.state == CLUSTER_PROVISIONING_STATE))
  let healthy_clusters :=
    clusters.countP (fun c => c.state == CLUSTER_UPDATING_STATE || c.state == CLUSTER_OK_STATE)
  ⟨clusters.length, pyHealthPercentage healthy_clusters deployed_clusters⟩

/-- A provisioner fixture in the OK state. -/
def okProvisioner : Provisioner := ⟨7, "p", "engine", 0, "OK"⟩

/-- Fifty clusters of which 29 are OK and 21 are in Error: all deployed. -/
def fiftyClusters : List Cluster :=
  List.replicate 29 ⟨1, "a", 0, "OK", okProvisioner⟩ ++
    List.replicate 21 ⟨2, "b", 0, "Error", okProvisioner⟩

/-- The five-cluster example from the specification. -/
def exampleClusters : List Cluster :=
  [⟨1, "a", 0, "Provisioning", okProvisioner⟩,
   ⟨2, "b", 0, "OK", okProvisioner⟩,
   ⟨3, "c", 0, "OK", okProvisioner⟩,
   ⟨4, "d", 0, "Updating", okProvisioner⟩,
   ⟨5, "e", 0, "Error", okProvisioner⟩]

/-- A stored user: the write-only password plus the remaining profile
attributes (role and arbitrary further fields, as an attribute list). -/
structure User where
  password : String
  profile : List (String × String)
deriving DecidableEq

/-- Overwrite of one profile attribute, as `setattr`: replace the binding
when the attribute exists, append it otherwise. -/
def profileSet (p : List (String × String)) (k v : String) : List (String × String) :=
  if p.any (fun kv => kv.1 = k) then
    p.map (fun kv => if kv.1 = k then (k, v) else kv)
  else p ++ [(k, v)]

/-- `setattr(self.obj, key, value)` on a user record. -/
def setattrUser (u : User) (k v : String) : User :=
  if k = "password" then { u with password := v }
  else { u with profile := profileSet u.profile k v }

/-- `UpdateUser.dispatch_request` after authentication: abort 400 on a
missing, falsy or non-object JSON body; delete `password` from the payload;
apply every remaining field with `setattr`; persist (`saveOk` is the outcome
of `self.obj.save()`, abort 500 when it raises) and return the object. -/
def UpdateUser.dispatch_request (u : User) (body : Option Jsonish) (saveOk : Bool) :
    Except HttpAbort User :=
  match body with
  | none => .error (400, "JSON data expected")
  | some .nonObject => .error (400, "")
  | some (.obj fields) =>
    if fields.isEmpty then .error (400, "JSON data expected")
    else
      let data := fields.filter (fun kv => kv.1 ≠ "password")
      let u' := data.foldl (fun acc kv => setattrUser acc kv.1 kv.2) u
      if saveOk then .ok u' else .error (500, "")

/-- The `/users/(pk)/updatepw` handler: abort 400 on a missing, falsy or
non-object body, then store `encrypt_password(data.get("password"))` and
persist.  `encrypt_password` (kqueen.auth, not under src) is the opaque
re-hash, passed as a parameter; the spec says updates always re-hash. -/
def user_password_update (u : User) (body : Option Jsonish)
    (encrypt_password : Option String → String) (saveOk : Bool) : Except HttpAbort User :=
  match body with
  | none => .error (400, "JSON data expected")
  | some .nonObject => .error (400, "")
  | some (.obj fields) =>
    if fields.isEmpty then .error (400, "JSON data expected")
    else
      let u' := { u with password := encrypt_password (lookupField fields "password") }
      if saveOk then .ok u' else .error (500, "")

/-- The profile patch the spec prescribes for a generic user update: every
non-password payload field applied in order, the password left alone. -/
def applyProfilePatch (p : List (String × String)) (fields : List (String × String)) :
    List (String × String) :=
  (fields.filter (fun kv => kv.1 ≠ "password")).foldl
    (fun acc kv => profileSet acc kv.1 kv.2) p

/-- How retrieving the parameter schema of one discovered engine can end:
a schema value, a NotImplementedError from `get_parameter_schema`, or any
other raise during import, attribute lookup or schema retrieval. -/
inductive GetSchemaOutcome where
  | ok (schema : String)
  | raiseNotImplemented
  | raiseOther
deriving DecidableEq

/-- One available engine as discovery sees it: its identifier, its optional
`verbose_name` attribute, and the outcome of schema retrieval. -/
structure EngineInfo where
  ident : String
  verbose : Option String
  schemaOutcome : GetSchemaOutcome
deriving DecidableEq

/-- Parameters reported for an engine: the retrieved schema, or the literal
empty provisioner/cluster pair substituted on NotImplementedError. -/
inductive ParamsVal where
  | fromSchema (s : String)
  | emptyDefault
deriving DecidableEq

/-- One entry of the discovery response. -/
structure EngineEntry where
  name : String
  verbose_name : String
  parameters : ParamsVal
deriving DecidableEq

/-- The module path prefix used for fully qualified engine names. -/
def module_path : String := "kqueen.engines"

/-- The `/provisioners/engines` handler: accumulate an entry per engine; on
NotImplementedError append an entry with the bare identifier and the empty
schema; on any other raise log and skip the engine. -/
def provisioner_engine_list (engines : List EngineInfo) : List EngineEntry :=
  engines.foldl
    (fun engine_cls engine =>
      match engine.schemaOutcome with
      | .ok parameters =>
        let name := module_path ++ "." ++ engine.ident
        engine_cls ++ [⟨name, engine.verbose.getD name, .fromSchema parameters⟩]
      | .raiseNotImplemented =>
        engine_cls ++ [⟨engine.ident, engine.ident, .emptyDefault⟩]
      | .raiseOther => engine_cls)
    []

/-- The entry the spec prescribes for one engine: present with its schema on
success, present with the empty schema when schema retrieval is
unimplemented, absent on any other retrieval error. -/
def discoveredEntry (engine : EngineInfo) : Option EngineEntry :=
  match engine.schemaOutcome with
  | .ok parameters =>
    let name := module_path ++ "." ++ engine.ident
    some ⟨name, engine.verbose.getD name, .fromSchema parameters⟩
  | .raiseNotImplemented => some ⟨engine.ident, engine.ident, .emptyDefault⟩
  | .raiseOther => none

/-- Python's `in` on strings: the needle occurs contiguously in the hay. -/
def inStr (needle hay : String) : Bool :=
  decide (needle.toList <:+: hay.toList)

/-- The attribute table of `ListClusters.filter_objects`: supported filter
keys with their value extractors. -/
def get_cluster_attr : List (String × (Cluster → String)) :=
  [("name", fun x => x.name), ("provisioner", fun x => x.provisioner.name)]

/-- `ListClusters.filter_objects`: return the input when no filters were
given, otherwise keep the clusters for which every supported filter key
present in the mapping matches case-insensitively as a substring. -/
def ListClusters.filter_objects (objects : List Cluster)
    (filters : List (String × String)) : List Cluster :=
  if filters.isEmpty then objects
  else objects.filter (fun x =>
    get_cluster_attr.all (fun ka =>
      match lookupField filters ka.1 with
      | some v => inStr v.toLower (ka.2 x).toLower
      | none => true))

/-- The attribute table of `ListProvisioners.filter_objects`. -/
def get_provisioner_attr : List (String × (Provisioner → String)) :=
  [("name", fun x => x.name), ("engine", fun x => x.engine)]

/-- `ListProvisioners.filter_objects`, mirror of the cluster variant with
the provisioner attribute table. -/
def ListProvisioners.filter_objects (objects : List Provisioner)
    (filters : List (String × String)) : List Provisioner :=
  if filters.isEmpty then objects
  else objects.filter (fun x =>
    get_provisioner_attr.all (fun ka =>
      match lookupField filters ka.1 with
      | some v => inStr v.toLower (ka.2 x).toLower
      | none => true))

/-- The filter predicate the spec prescribes for clusters: a `name` filter,
when present, is a case-insensitive substring of the cluster name, and a
`provisioner` filter of the owning provisioner's name; other keys ignored. -/
def clusterPassesFilters (filters : List (String × String)) (x : Cluster) : Bool :=
  ((lookupField filters "name").all fun v => inStr v.toLower x.name.toLower) &&
  ((lookupField filters "provisioner").all fun v => inStr v.toLower x.provisioner.name.toLower)

/-- The filter predicate the spec prescribes for provisioners: `name` and
`engine` filters as case-insensitive substrings; other keys ignored. -/
def provisionerPassesFilters (filters : List (String × String)) (x : Provisioner) : Bool :=
  ((lookupField filters "name").all fun v => inStr v.toLower x.name.toLower) &&
  ((lookupField filters "engine").all fun v => inStr v.toLower x.engine.toLower)

/-- Modelled from the spec: the per-object refresh operation
(`Cluster.update_state`, kqueen.models, not under src) observes the engine
and stores the newly observed state, or raises; outcomes are given by an
oracle keyed by object identity, the refreshed record keeps the prior state
when the refresh raised. -/
def refreshedCluster (upd : Nat → Except Unit String) (c : Cluster) : Cluster :=
  match upd c.id with
  | .ok s => { c with state := s }
  | .error _ => c

/-- The concurrent fan-out of `ListClusters._update_clusters`: every future
runs `update_state`, mutating its own cluster on success; `gather` re-raises
when any refresh raised.  First component: did the awaited gather raise;
second: the clusters after all futures ran. -/
def ListClusters.updateClustersGather (upd : Nat → Except Unit String)
    (clusters : List Cluster) : Bool × List Cluster :=
  (clusters.any (fun c => match upd c.id with | .ok _ => false | .error _ => true),
   clusters.map (refreshedCluster upd))

/-- The sequential fallback loop `for c in clusters: c.update_state()`: a
raising refresh propagates immediately, there is no per-object handler. -/
def ListClusters.updateClustersSequential (upd : Nat → Except Unit String) :
    List Cluster → Except Unit (List Cluster)
  | [] => .ok []
  | c :: rest =>
    match upd c.id with
    | .error e => .error e
    | .ok s =>
      match ListClusters.updateClustersSequential upd rest with
      | .error e => .error e
      | .ok rest' => .ok ({ c with state := s } :: rest')

/-- `ListClusters.get_content`: when state refresh on list is enabled, try
the asyncio fan-out (`loopOk` says whether an event loop could be
established); any error in the concurrent path — including a raising
refresh re-raised by `gather` — falls back to the sequential loop over the
current objects.  The serialized response is the final object list
(`super().get_content`, generic_views not under src, modelled from the spec
as serializing the objects). -/
def ListClusters.get_content (stateOnList loopOk : Bool)
    (upd : Nat → Except Unit String) (clusters : List Cluster) :
    Except Unit (List Cluster) :=
  if stateOnList then
    if loopOk then
      let g := ListClusters.updateClustersGather upd clusters
      if g.1 then ListClusters.updateClustersSequential upd g.2 else .ok g.2
    else ListClusters.updateClustersSequential upd clusters
  else .ok clusters

/-- Modelled from the spec: the per-provisioner refresh operation
(`Provisioner.engine_status`, kqueen.models, not under src), as for
clusters. -/
def refreshedProvisioner (est : Nat → Except Unit String) (p : Provisioner) : Provisioner :=
  match est p.id with
  | .ok s => { p with state := s }
  | .error _ => p

/-- The concurrent fan-out of `ListProvisioners._update_provisioners`. -/
def ListProvisioners.updateProvisionersGather (est : Nat → Except Unit String)
    (provisioners : List Provisioner) : Bool × List Provisioner :=
  (provisioners.any (fun p => match est p.id with | .ok _ => false | .error _ => true),
   provisioners.map (refreshedProvisioner est))

/-- The sequential fallback loop `for p in provisioners: p.engine_status()`. -/
def ListProvisioners.updateProvisionersSequential (est : Nat → Except Unit String) :
    List Provisioner → Except Unit (List Provisioner)
  | [] => .ok []
  | p :: rest =>
    match est p.id with
    | .error e => .error e
    | .ok s =>
      match ListProvisioners.updateProvisionersSequential est rest with
      | .error e => .error e
      | .ok rest' => .ok ({ p with state := s } :: rest')

/-- `ListProvisioners.get_content`, mirror of the cluster variant. -/
def ListProvisioners.get_content (stateOnList loopOk : Bool)
    (est : Nat → Except Unit String) (provisioners : List Provisioner) :
    Except Unit (List Provisioner) :=
  if stateOnList then
    if loopOk then
      let g := ListProvisioners.updateProvisionersGather est provisioners
      if g.1 then ListProvisioners.updateProvisionersSequential est g.2 else .ok g.2
    else ListProvisioners.updateProvisionersSequential est provisioners
  else .ok provisioners

/-- One component of a composite sort key: the extractors mix strings
(names, engine identifiers, states) with opaque ordered stamps (creation
times, identities), so a key component is one or the other. -/
inductive Atom where
  | str (v : String)
  | nat (v : Nat)
deriving DecidableEq

/-- Strict comparison of two key components; components at the same tuple
position always have the same shape, the cross cases are arbitrary but
fixed so that the order stays total. -/
def atomLt : Atom → Atom → Bool
  | .str a, .str b => decide (a < b)
  | .nat a, .nat b => decide (a < b)
  | .str _, .nat _ => true
  | .nat _, .str _ => false

/-- Lexicographic comparison of composite keys, as Python compares tuples. -/
def atomsLe : List Atom → List Atom → Bool
  | [], _ => true
  | _ :: _, [] => false
  | a :: as, b :: bs => atomLt a b || (a == b && atomsLe as bs)

/-- The comparator `sorted(objects, key=f, reverse=(order == "asc"))`
induces: Python's sort is stable and ascending in the key; with
`reverse=True` it yields the descending key order (stability is immaterial
here because every key ends in the unique identity). -/
def sortCmp {α : Type} (f : α → List Atom) (order : String) : α → α → Bool :=
  fun a b => if order = "asc" then atomsLe (f b) (f a) else atomsLe (f a) (f b)

/-- The sort-key table of `ListClusters`: each extractor returns the
composite key tuple of the source, ending in the object's id. -/
def ListClusters.supported_sort_fields : String → Option (Cluster → List Atom)
  | "name" => some fun x => [.str x.name, .nat x.created_at, .nat x.id]
  | "provisioner" => some fun x => [.str x.provisioner.name, .str x.name, .nat x.id]
  | "created_at" => some fun x => [.nat x.created_at, .str x.name, .nat x.id]
  | "created" => some fun x => [.nat x.created_at, .str x.name, .nat x.id]
  | "status" => some fun x => [.str x.state, .str x.name, .nat x.id]
  | "state" => some fun x => [.str x.state, .str x.name, .nat x.id]
  | _ => none

/-- `ListClusters.sort_objects`: a stable sort by the keyed comparator,
reversed when order is the string `asc`; an unsupported key raises
(`KeyError` on the table lookup), modelled as `none`. -/
def ListClusters.sort_objects (objects : List Cluster) (key order : String) :
    Option (List Cluster) :=
  (ListClusters.supported_sort_fields key).map
    (fun f => objects.mergeSort (sortCmp f order))

/-- The sort-key table of `ListProvisioners`; the `created_at`/`created`
extractors return a pair, the others a triple, all ending in the id. -/
def ListProvisioners.supported_sort_fields : String → Option (Provisioner → List Atom)
  | "name" => some fun x => [.str x.name, .nat x.created_at, .nat x.id]
  | "engine" => some fun x => [.str x.engine, .str x.name, .nat x.id]
  | "created_at" => some fun x => [.nat x.created_at, .nat x.id]
  | "created" => some fun x => [.nat x.created_at, .nat x.id]
  | "status" => some fun x => [.str x.state, .str x.name, .nat x.id]
  | "state" => some fun x => [.str x.state, .str x.name, .nat x.id]
  | _ => none

/-- `ListProvisioners.sort_objects`, mirror of the cluster variant. -/
def ListProvisioners.sort_objects (objects : List Provisioner) (key order : String) :
    Option (List Provisioner) :=
  (ListProvisioners.supported_sort_fields key).map
    (fun f => objects.mergeSort (sortCmp f order))

/-- Two clusters sharing everything except name and identity, a sorting
fixture. -/
def sortFixtureClusters : List Cluster :=
  [⟨2, "b", 0, "OK", ⟨7, "p", "engine", 0, "OK"⟩⟩,
   ⟨1, "a", 0, "OK", ⟨7, "p", "engine", 0, "OK"⟩⟩]

/-- A one-provisioner list, a sorting fixture. -/
def sortFixtureProvisioners : List Provisioner :=
  [⟨7, "p", "engine", 0, "OK"⟩]

set_option maxRecDepth 100000 in
set_option maxHeartbeats 4000000 in
/-- The float pipeline agrees with the exact floor formula whenever the
deployed count stays below 50. -/
theorem pyHealthPercentage_eq_floor_of_lt :
    ∀ d < 50, ∀ h ≤ d, pyHealthPercentage h d = 100 * h / d := by
  decide

/-- C3: creating a cluster against a provisioner in any state other than OK
aborts the request with a 500 error and never reaches the persistence step:
the stored collection cannot come out of the call. -/
theorem createCluster_rejects_bad_provisioner (c : Cluster) (db : List Cluster)
    (h : c.provisioner.state ≠ PROVISIONER_OK_STATE) :
    CreateCluster.save_object c db =
      .error (500, "Cannot create cluster with malfunctioning Provisioner") ∧
    ∀ db', CreateCluster.save_object c db ≠ .ok db' := by
  refine ⟨?_, ?_⟩
  · simp [CreateCluster.save_object, h]
  · intro db'
    simp [CreateCluster.save_object, h]

/-- Witness for C3 at a concrete cluster whose provisioner is in Error state. -/
theorem createCluster_rejects_bad_provisioner_witness :
    CreateCluster.save_object
        ⟨1, "c", 0, "Provisioning", ⟨2, "p", "e", 0, "Error"⟩⟩ [] =
      .error (500, "Cannot create cluster with malfunctioning Provisioner") :=
  (createCluster_rejects_bad_provisioner
    ⟨1, "c", 0, "Provisioning", ⟨2, "p", "e", 0, "Error"⟩⟩ [] (by decide)).1

/-- C4: an unimplemented `get_progress` yields a transport-level success whose
body carries the 501 marker and the freshly refreshed state; any other raise
yields a transport-level success carrying the 500 marker and the Unknown
state; no outcome of the engine call makes the handler abort. -/
theorem cluster_progress_degrades (gp : GetProgressOutcome) (freshState : String) :
    cluster_progress .raiseNotImplemented freshState =
      .ok (.degraded ⟨501, 0, freshState⟩) ∧
    cluster_progress .raiseOther freshState =
      .ok (.degraded ⟨500, 0, CLUSTER_UNKNOWN_STATE⟩) ∧
    ∀ e, cluster_progress gp freshState ≠ .error e := by
  refine ⟨rfl, rfl, ?_⟩
  intro e
  cases gp <;> simp [cluster_progress]

/-- C6: a resize request whose body is not a JSON object containing
`node_count` is rejected with a 400 abort and the engine is never called. -/
theorem cluster_resize_rejects_missing_node_count (body : Option Jsonish)
    (resize : String → Bool × String) (engineCluster : String)
    (h : hasNodeCount body = false) :
    cluster_resize body resize engineCluster = (.error (400, ""), false) := by
  match body with
  | none => rfl
  | some .nonObject => rfl
  | some (.obj fields) =>
    simp only [hasNodeCount] at h
    cases hl : lookupField fields "node_count" with
    | none => simp [cluster_resize, hl]
    | some v => rw [hl] at h; simp at h

/-- Witness for C6 at a concrete JSON object body lacking `node_count`. -/
theorem cluster_resize_rejects_missing_node_count_witness :
    cluster_resize (some (.obj [("name", "c")])) (fun _ => (true, "")) "doc" =
      (.error (400, ""), false) :=
  cluster_resize_rejects_missing_node_count (some (.obj [("name", "c")]))
    (fun _ => (true, "")) "doc" (by decide)

/-- C2 counterexample: for fifty deployed clusters of which 29 are healthy
the view returns 57, while the claimed formula floor(100 * healthy / deployed)
gives 58 — Python's float arithmetic loses one: 29/50 rounds to a binary64
just below 0.58 and the product to one just below 58. -/
theorem clustersHealth_floor_counterexample :
    fiftyClusters.countP
        (fun c => c.state == CLUSTER_UPDATING_STATE || c.state == CLUSTER_OK_STATE) = 29 ∧
    fiftyClusters.countP (fun c => !(c.state == CLUSTER_PROVISIONING_STATE)) = 50 ∧
    (GetClustersHealth.get_content fiftyClusters).healthy_percentage = 57 ∧
    100 * 29 / 50 = 58 := by
  refine ⟨by decide, by decide, ?_, by decide⟩
  decide

/-- C2 as amended: whenever fewer than 50 clusters are deployed the health
percentage equals floor(100 * healthy / deployed), with 0 when no cluster is
deployed (floor division by zero is zero); the specification's five-cluster
example yields 75. -/
theorem clustersHealth_floor_small (clusters : List Cluster)
    (hd : clusters.countP (fun c => !(c.state == CLUSTER_PROVISIONING_STATE)) < 50) :
    (GetClustersHealth.get_content clusters).healthy_percentage =
      100 * clusters.countP
          (fun c => c.state == CLUSTER_UPDATING_STATE || c.state == CLUSTER_OK_STATE) /
        clusters.countP (fun c => !(c.state == CLUSTER_PROVISIONING_STATE)) ∧
    (GetClustersHealth.get_content exampleClusters).healthy_percentage = 75 := by
  constructor
  · have hmono :
        clusters.countP
            (fun c => c.state == CLUSTER_UPDATING_STATE || c.state == CLUSTER_OK_STATE) ≤
          clusters.countP (fun c => !(c.state == CLUSTER_PROVISIONING_STATE)) := by
      refine List.countP_mono_left ?_
      intro c _ h
      simp only [Bool.or_eq_true, beq_iff_eq] at h
      rcases h with h | h <;> simp [h, CLUSTER_UPDATING_STATE, CLUSTER_OK_STATE,
        CLUSTER_PROVISIONING_STATE]
    exact pyHealthPercentage_eq_floor_of_lt _ hd _ hmono
  · decide

/-- Witness for the amended C2 at the five-cluster example: three healthy of
four deployed gives 75. -/
theorem clustersHealth_floor_small_witness :
    (GetClustersHealth.get_content exampleClusters).healthy_percentage = 100 * 3 / 4 :=
  (clustersHealth_floor_small exampleClusters (by decide)).1

/-- Folding `setattr` over a payload that contains no password key leaves
the password untouched and patches only the profile. -/
theorem foldl_setattr_no_password (u : User) (l : List (String × String))
    (h : ∀ kv ∈ l, kv.1 ≠ "password") :
    l.foldl (fun acc kv => setattrUser acc kv.1 kv.2) u =
      ⟨u.password, l.foldl (fun acc kv => profileSet acc kv.1 kv.2) u.profile⟩ := by
  induction l generalizing u with
  | nil => rfl
  | cons kv rest ih =>
    have hk : kv.1 ≠ "password" := h kv (by simp)
    simp only [List.foldl_cons, setattrUser, if_neg hk]
    exact ih _ (fun x hx => h x (by simp [hx]))

/-- C5: a generic user update whose payload contains `password` dispatches
without changing the stored password, applying exactly the non-password
fields to the profile; the dedicated password update stores the re-hashed
form of the supplied value, which is never the raw value when the hash
moves every input. -/
theorem updateUser_password_isolation
    (u : User) (fields pwfields : List (String × String)) (pw : String)
    (encrypt_password : Option String → String)
    (hhas : (lookupField fields "password").isSome = true)
    (hpw : lookupField pwfields "password" = some pw)
    (hnoraw : ∀ s, encrypt_password (some s) ≠ s) :
    UpdateUser.dispatch_request u (some (.obj fields)) true =
      .ok ⟨u.password, applyProfilePatch u.profile fields⟩ ∧
    user_password_update u (some (.obj pwfields)) encrypt_password true =
      .ok { u with password := encrypt_password (some pw) } ∧
    encrypt_password (some pw) ≠ pw := by
  have hfne : fields.isEmpty = false := by
    cases fields with
    | nil => simp [lookupField] at hhas
    | cons a l => rfl
  have hpne : pwfields.isEmpty = false := by
    cases pwfields with
    | nil => simp [lookupField] at hpw
    | cons a l => rfl
  refine ⟨?_, ?_, hnoraw pw⟩
  · simp only [UpdateUser.dispatch_request, hfne, Bool.false_eq_true, if_false, if_true]
    have hnp : ∀ kv ∈ fields.filter (fun kv => kv.1 ≠ "password"), kv.1 ≠ "password" := by
      intro kv hkv
      exact of_decide_eq_true (List.mem_filter.mp hkv).2
    rw [foldl_setattr_no_password u _ hnp]
    rfl
  · simp only [user_password_update, hpne, Bool.false_eq_true, if_false, if_true, hpw]

/-- Witness for C5: a payload carrying both `password` and `role` patches
only the role; the dedicated update stores the hash, not the raw value. -/
theorem updateUser_password_isolation_witness :
    UpdateUser.dispatch_request ⟨"old", []⟩
        (some (.obj [("password", "x"), ("role", "admin")])) true =
      .ok ⟨"old", [("role", "admin")]⟩ ∧
    user_password_update ⟨"old", []⟩ (some (.obj [("password", "x")]))
        (fun o => (o.getD "") ++ "#") true = .ok ⟨"x#", []⟩ ∧
    ((fun o => (o.getD "" : String) ++ "#") (some "x")) ≠ "x" := by
  have henc : ∀ s : String, ((fun o => (Option.getD o "") ++ "#") (some s)) ≠ s := by
    intro s hs
    have hl := congrArg String.length hs
    simp only [Option.getD_some, String.length_append] at hl
    have h1 : ("#" : String).length = 1 := rfl
    rw [h1] at hl
    omega
  exact updateUser_password_isolation ⟨"old", []⟩
    [("password", "x"), ("role", "admin")] [("password", "x")] "x"
    (fun o => (o.getD "") ++ "#") (by decide) (by decide) henc

/-- Discovery accumulates exactly the entries prescribed per engine. -/
theorem provisioner_engine_list_eq_filterMap (engines : List EngineInfo) :
    provisioner_engine_list engines = engines.filterMap discoveredEntry := by
  suffices h : ∀ acc : List EngineEntry,
      engines.foldl
        (fun engine_cls engine =>
          match engine.schemaOutcome with
          | .ok parameters =>
            let name := module_path ++ "." ++ engine.ident
            engine_cls ++ [⟨name, engine.verbose.getD name, .fromSchema parameters⟩]
          | .raiseNotImplemented =>
            engine_cls ++ [⟨engine.ident, engine.ident, .emptyDefault⟩]
          | .raiseOther => engine_cls)
        acc = acc ++ engines.filterMap discoveredEntry by
    simpa [provisioner_engine_list] using h []
  induction engines with
  | nil => intro acc; simp
  | cons e rest ih =>
    intro acc
    cases ho : e.schemaOutcome <;>
      simp [List.foldl_cons, List.filterMap_cons, ho, discoveredEntry, ih]

/-- Lengths of filtered maps count the hits. -/
theorem length_filterMap_eq_countP {α β : Type} (f : α → Option β) (l : List α) :
    (l.filterMap f).length = l.countP (fun a => (f a).isSome) := by
  induction l with
  | nil => rfl
  | cons a rest ih =>
    cases hf : f a <;> simp [List.filterMap_cons, List.countP_cons, hf, ih]

/-- C8: discovery returns one entry per engine whose schema retrieval did
not raise a foreign error — raising engines are skipped without aborting
the rest — and an engine whose retrieval is unimplemented is reported under
its bare identifier with the empty parameter schema. -/
theorem engine_discovery_resilient (engines : List EngineInfo) (e : EngineInfo)
    (he : e ∈ engines) :
    (provisioner_engine_list engines).length =
      engines.countP (fun x => !(x.schemaOutcome == GetSchemaOutcome.raiseOther)) ∧
    (e.schemaOutcome = .raiseNotImplemented →
      (⟨e.ident, e.ident, .emptyDefault⟩ : EngineEntry) ∈ provisioner_engine_list engines) ∧
    ∀ s, e.schemaOutcome = .ok s →
      (⟨module_path ++ "." ++ e.ident,
        e.verbose.getD (module_path ++ "." ++ e.ident),
        .fromSchema s⟩ : EngineEntry) ∈ provisioner_engine_list engines := by
  refine ⟨?_, ?_, ?_⟩
  · rw [provisioner_engine_list_eq_filterMap, length_filterMap_eq_countP]
    have hfun : (fun a : EngineInfo => (discoveredEntry a).isSome) =
        (fun x : EngineInfo => !(x.schemaOutcome == GetSchemaOutcome.raiseOther)) := by
      funext a
      rcases a with ⟨i, v, o⟩
      cases o <;> rfl
    rw [hfun]
  · intro hni
    rw [provisioner_engine_list_eq_filterMap]
    exact List.mem_filterMap.mpr ⟨e, he, by simp [discoveredEntry, hni]⟩
  · intro s hs
    rw [provisioner_engine_list_eq_filterMap]
    exact List.mem_filterMap.mpr ⟨e, he, by simp [discoveredEntry, hs]⟩

/-- Witness for C8 on three engines: one succeeding, one unimplemented and
one raising — two entries survive and the unimplemented one is reported. -/
theorem engine_discovery_resilient_witness :
    (provisioner_engine_list
        [⟨"A", none, .ok "sch"⟩, ⟨"B", none, .raiseNotImplemented⟩,
         ⟨"C", none, .raiseOther⟩]).length = 2 ∧
    (⟨"B", "B", .emptyDefault⟩ : EngineEntry) ∈ provisioner_engine_list
        [⟨"A", none, .ok "sch"⟩, ⟨"B", none, .raiseNotImplemented⟩,
         ⟨"C", none, .raiseOther⟩] := by
  have h := engine_discovery_resilient
    [⟨"A", none, .ok "sch"⟩, ⟨"B", none, .raiseNotImplemented⟩,
     ⟨"C", none, .raiseOther⟩] ⟨"B", none, .raiseNotImplemented⟩ (by simp)
  exact ⟨h.1.trans (by decide), h.2.1 rfl⟩

/-- C9: both filter hooks return exactly the objects passing the
spec-prescribed per-key case-insensitive substring predicate — supported
keys are `name` and `provisioner` for clusters, `name` and `engine` for
provisioners, other filter keys are ignored, and an empty filter mapping
returns the input unchanged (the filter predicate is then constantly
true). -/
theorem filter_objects_spec (cobjects : List Cluster) (pobjects : List Provisioner)
    (filters : List (String × String)) :
    ListClusters.filter_objects cobjects filters =
      cobjects.filter (clusterPassesFilters filters) ∧
    ListProvisioners.filter_objects pobjects filters =
      pobjects.filter (provisionerPassesFilters filters) := by
  constructor
  · by_cases hf : filters.isEmpty
    · have he : filters = [] := by simpa using hf
      subst he
      have hc : clusterPassesFilters ([] : List (String × String)) = fun _ => true := by
        funext x
        rfl
      simp [ListClusters.filter_objects, hc]
    · have hpred : ∀ x : Cluster,
          get_cluster_attr.all (fun ka =>
            match lookupField filters ka.1 with
            | some v => inStr v.toLower (ka.2 x).toLower
            | none => true) = clusterPassesFilters filters x := by
        intro x
        simp only [get_cluster_attr, List.all_cons, List.all_nil, Bool.and_true,
          clusterPassesFilters]
        cases lookupField filters "name" <;> cases lookupField filters "provisioner" <;>
          simp [Option.all]
      simp only [ListClusters.filter_objects, hf, Bool.false_eq_true, if_false]
      exact List.filter_congr (fun x _ => hpred x)
  · by_cases hf : filters.isEmpty
    · have he : filters = [] := by simpa using hf
      subst he
      have hp : provisionerPassesFilters ([] : List (String × String)) = fun _ => true := by
        funext x
        rfl
      simp [ListProvisioners.filter_objects, hp]
    · have hpred : ∀ x : Provisioner,
          get_provisioner_attr.all (fun ka =>
            match lookupField filters ka.1 with
            | some v => inStr v.toLower (ka.2 x).toLower
            | none => true) = provisionerPassesFilters filters x := by
        intro x
        simp only [get_provisioner_attr, List.all_cons, List.all_nil, Bool.and_true,
          provisionerPassesFilters]
        cases lookupField filters "name" <;> cases lookupField filters "engine" <;>
          simp [Option.all]
      simp only [ListProvisioners.filter_objects, hf, Bool.false_eq_true, if_false]
      exact List.filter_congr (fun x _ => hpred x)

/-- A refresh attempt does not change the object's identity. -/
theorem refreshedCluster_id (upd : Nat → Except Unit String) (c : Cluster) :
    (refreshedCluster upd c).id = c.id := by
  cases h : upd c.id <;> simp [refreshedCluster, h]

/-- A refresh attempt does not change the provisioner's identity. -/
theorem refreshedProvisioner_id (est : Nat → Except Unit String) (p : Provisioner) :
    (refreshedProvisioner est p).id = p.id := by
  cases h : est p.id <;> simp [refreshedProvisioner, h]

/-- When no refresh raises, the sequential loop refreshes every cluster in
order. -/
theorem seqClusters_ok (upd : Nat → Except Unit String) (l : List Cluster)
    (h : ∀ c ∈ l, upd c.id ≠ .error ()) :
    ListClusters.updateClustersSequential upd l = .ok (l.map (refreshedCluster upd)) := by
  induction l with
  | nil => rfl
  | cons c rest ih =>
    cases hv : upd c.id with
    | error e =>
      cases e
      exact absurd hv (h c (List.mem_cons_self c rest))
    | ok s =>
      have hr := ih (fun x hx => h x (List.mem_cons_of_mem c hx))
      simp only [ListClusters.updateClustersSequential, hv, hr, List.map_cons]
      simp [refreshedCluster, hv]

/-- When some refresh raises, the sequential loop raises. -/
theorem seqClusters_error (upd : Nat → Except Unit String) (l : List Cluster)
    (h : ∃ c ∈ l, upd c.id = .error ()) :
    ListClusters.updateClustersSequential upd l = .error () := by
  induction l with
  | nil => simp at h
  | cons c rest ih =>
    cases hv : upd c.id with
    | error e =>
      cases e
      simp [ListClusters.updateClustersSequential, hv]
    | ok s =>
      have hrest : ∃ x ∈ rest, upd x.id = .error () := by
        obtain ⟨x, hx, he⟩ := h
        rcases List.mem_cons.mp hx with rfl | hx'
        · rw [hv] at he
          exact absurd he (by simp)
        · exact ⟨x, hx', he⟩
      simp [ListClusters.updateClustersSequential, hv, ih hrest]

/-- When no refresh raises, the sequential loop refreshes every provisioner
in order. -/
theorem seqProvisioners_ok (est : Nat → Except Unit String) (l : List Provisioner)
    (h : ∀ p ∈ l, est p.id ≠ .error ()) :
    ListProvisioners.updateProvisionersSequential est l =
      .ok (l.map (refreshedProvisioner est)) := by
  induction l with
  | nil => rfl
  | cons p rest ih =>
    cases hv : est p.id with
    | error e =>
      cases e
      exact absurd hv (h p (List.mem_cons_self p rest))
    | ok s =>
      have hr := ih (fun x hx => h x (List.mem_cons_of_mem p hx))
      simp only [ListProvisioners.updateProvisionersSequential, hv, hr, List.map_cons]
      simp [refreshedProvisioner, hv]

/-- When some refresh raises, the provisioner sequential loop raises. -/
theorem seqProvisioners_error (est : Nat → Except Unit String) (l : List Provisioner)
    (h : ∃ p ∈ l, est p.id = .error ()) :
    ListProvisioners.updateProvisionersSequential est l = .error () := by
  induction l with
  | nil => simp at h
  | cons p rest ih =>
    cases hv : est p.id with
    | error e =>
      cases e
      simp [ListProvisioners.updateProvisionersSequential, hv]
    | ok s =>
      have hrest : ∃ x ∈ rest, est x.id = .error () := by
        obtain ⟨x, hx, he⟩ := h
        rcases List.mem_cons.mp hx with rfl | hx'
        · rw [hv] at he
          exact absurd he (by simp)
        · exact ⟨x, hx', he⟩
      simp [ListProvisioners.updateProvisionersSequential, hv, ih hrest]

/-- The gather flag is clear exactly when no refresh raised. -/
theorem gatherClusters_fst_eq_false (upd : Nat → Except Unit String) (l : List Cluster) :
    ((ListClusters.updateClustersGather upd l).1 = false) ↔
      ∀ c ∈ l, upd c.id ≠ .error () := by
  simp only [ListClusters.updateClustersGather, List.any_eq_false]
  refine forall_congr' (fun c => forall_congr' (fun _ => ?_))
  cases h : upd c.id with
  | ok s => simp [h]
  | error e => cases e; simp [h]

/-- The provisioner gather flag, mirror statement. -/
theorem gatherProvisioners_fst_eq_false (est : Nat → Except Unit String)
    (l : List Provisioner) :
    ((ListProvisioners.updateProvisionersGather est l).1 = false) ↔
      ∀ p ∈ l, est p.id ≠ .error () := by
  simp only [ListProvisioners.updateProvisionersGather, List.any_eq_false]
  refine forall_congr' (fun p => forall_congr' (fun _ => ?_))
  cases h : est p.id with
  | ok s => simp [h]
  | error e => cases e; simp [h]

/-- With refresh-on-list enabled and no raising refresh, the cluster list
call returns every object refreshed, on either path. -/
theorem getContentClusters_ok (upd : Nat → Except Unit String) (loopOk : Bool)
    (l : List Cluster) (h : ∀ c ∈ l, upd c.id ≠ .error ()) :
    ListClusters.get_content true loopOk upd l = .ok (l.map (refreshedCluster upd)) := by
  cases loopOk with
  | false =>
    simp only [ListClusters.get_content, if_true, Bool.false_eq_true, if_false]
    exact seqClusters_ok upd l h
  | true =>
    have hflag : (ListClusters.updateClustersGather upd l).1 = false :=
      (gatherClusters_fst_eq_false upd l).mpr h
    simp only [ListClusters.get_content, if_true, hflag, Bool.false_eq_true, if_false]
    rfl

/-- With refresh-on-list enabled and some raising refresh, the cluster list
call raises, on either path. -/
theorem getContentClusters_error (upd : Nat → Except Unit String) (loopOk : Bool)
    (l : List Cluster) (h : ∃ c ∈ l, upd c.id = .error ()) :
    ListClusters.get_content true loopOk upd l = .error () := by
  cases loopOk with
  | false =>
    simp only [ListClusters.get_content, if_true, Bool.false_eq_true, if_false]
    exact seqClusters_error upd l h
  | true =>
    have hflag : (ListClusters.updateClustersGather upd l).1 = true := by
      cases hv : (ListClusters.updateClustersGather upd l).1 with
      | true => rfl
      | false =>
        obtain ⟨c, hc, he⟩ := h
        exact absurd he ((gatherClusters_fst_eq_false upd l).mp hv c hc)
    simp only [ListClusters.get_content, if_true, hflag]
    apply seqClusters_error
    obtain ⟨c, hc, he⟩ := h
    exact ⟨refreshedCluster upd c,
      List.mem_map_of_mem (refreshedCluster upd) hc, by rwa [refreshedCluster_id]⟩

/-- With refresh-on-list enabled and no raising refresh, the provisioner
list call returns every object refreshed, on either path. -/
theorem getContentProvisioners_ok (est : Nat → Except Unit String) (loopOk : Bool)
    (l : List Provisioner) (h : ∀ p ∈ l, est p.id ≠ .error ()) :
    ListProvisioners.get_content true loopOk est l =
      .ok (l.map (refreshedProvisioner est)) := by
  cases loopOk with
  | false =>
    simp only [ListProvisioners.get_content, if_true, Bool.false_eq_true, if_false]
    exact seqProvisioners_ok est l h
  | true =>
    have hflag : (ListProvisioners.updateProvisionersGather est l).1 = false :=
      (gatherProvisioners_fst_eq_false est l).mpr h
    simp only [ListProvisioners.get_content, if_true, hflag, Bool.false_eq_true, if_false]
    rfl

/-- With refresh-on-list enabled and some raising refresh, the provisioner
list call raises, on either path. -/
theorem getContentProvisioners_error (est : Nat → Except Unit String) (loopOk : Bool)
    (l : List Provisioner) (h : ∃ p ∈ l, est p.id = .error ()) :
    ListProvisioners.get_content true loopOk est l = .error () := by
  cases loopOk with
  | false =>
    simp only [ListProvisioners.get_content, if_true, Bool.false_eq_true, if_false]
    exact seqProvisioners_error est l h
  | true =>
    have hflag : (ListProvisioners.updateProvisionersGather est l).1 = true := by
      cases hv : (ListProvisioners.updateProvisionersGather est l).1 with
      | true => rfl
      | false =>
        obtain ⟨p, hp, he⟩ := h
        exact absurd he ((gatherProvisioners_fst_eq_false est l).mp hv p hp)
    simp only [ListProvisioners.get_content, if_true, hflag]
    apply seqProvisioners_error
    obtain ⟨p, hp, he⟩ := h
    exact ⟨refreshedProvisioner est p,
      List.mem_map_of_mem (refreshedProvisioner est) hp, by rwa [refreshedProvisioner_id]⟩

/-- C1 counterexample: with refresh-on-list enabled and a working event
loop, a single cluster whose `update_state` raises makes the list call
itself raise — the exception escapes through the sequential fallback, which
has no per-object handler. -/
theorem listRefresh_counterexample :
    ListClusters.get_content true true (fun _ => .error ())
      [⟨1, "a", 0, "OK", okProvisioner⟩] = .error () := rfl

/-- C1 as amended: with refresh-on-list enabled, the list call (clusters
and provisioners alike, with or without a working concurrent facility)
raises exactly when some per-object refresh raises — a raising refresh is
caught on the concurrent path but re-raised by the sequential fallback, so
it escapes to the caller — and when no refresh raises, every object comes
back refreshed in original order and no error escapes. -/
theorem listRefresh_error_propagation (upd est : Nat → Except Unit String)
    (loopOk : Bool) (clusters : List Cluster) (provisioners : List Provisioner) :
    (ListClusters.get_content true loopOk upd clusters = .error () ↔
      ∃ c ∈ clusters, upd c.id = .error ()) ∧
    ((∀ c ∈ clusters, upd c.id ≠ .error ()) →
      ListClusters.get_content true loopOk upd clusters =
        .ok (clusters.map (refreshedCluster upd))) ∧
    (ListProvisioners.get_content true loopOk est provisioners = .error () ↔
      ∃ p ∈ provisioners, est p.id = .error ()) ∧
    ((∀ p ∈ provisioners, est p.id ≠ .error ()) →
      ListProvisioners.get_content true loopOk est provisioners =
        .ok (provisioners.map (refreshedProvisioner est))) := by
  refine ⟨⟨?_, ?_⟩, ?_, ⟨?_, ?_⟩, ?_⟩
  · intro herr
    by_contra hno
    push_neg at hno
    rw [getContentClusters_ok upd loopOk clusters hno] at herr
    exact absurd herr (by simp)
  · exact getContentClusters_error upd loopOk clusters
  · exact getContentClusters_ok upd loopOk clusters
  · intro herr
    by_contra hno
    push_neg at hno
    rw [getContentProvisioners_ok est loopOk provisioners hno] at herr
    exact absurd herr (by simp)
  · exact getContentProvisioners_error est loopOk provisioners
  · exact getContentProvisioners_ok est loopOk provisioners

/-- Witness for the amended C1: a one-cluster list whose refresh succeeds
comes back refreshed without an error. -/
theorem listRefresh_error_propagation_witness :
    ListClusters.get_content true true (fun _ => .ok "OK")
      [⟨1, "a", 0, "Unknown", okProvisioner⟩] =
      .ok [⟨1, "a", 0, "OK", okProvisioner⟩] := by
  have h := (listRefresh_error_propagation (fun _ => .ok "OK") (fun _ => .ok "OK") true
      [⟨1, "a", 0, "Unknown", okProvisioner⟩] []).2.1 (by intro c hc; simp)
  exact h

/-- Transitivity of the strict component order. -/
theorem atomLt_trans (a b c : Atom) (h1 : atomLt a b = true) (h2 : atomLt b c = true) :
    atomLt a c = true := by
  cases a <;> cases b <;> cases c <;>
    simp only [atomLt, decide_eq_true_eq, Bool.false_eq_true] at h1 h2 ⊢ <;>
    exact lt_trans h1 h2

/-- Trichotomy of the strict component order. -/
theorem atomLt_or_eq_or_gt (a b : Atom) :
    atomLt a b = true ∨ a = b ∨ atomLt b a = true := by
  cases a with
  | str v =>
    cases b with
    | str w => simpa [atomLt, Atom.str.injEq] using lt_trichotomy v w
    | nat w => exact Or.inl rfl
  | nat v =>
    cases b with
    | str w => exact Or.inr (Or.inr rfl)
    | nat w => simpa [atomLt, Atom.nat.injEq] using lt_trichotomy v w

/-- Transitivity of the lexicographic key order. -/
theorem atomsLe_trans : ∀ as bs cs : List Atom,
    atomsLe as bs = true → atomsLe bs cs = true → atomsLe as cs = true := by
  intro as
  induction as with
  | nil => intro bs cs h1 h2; rfl
  | cons a as' ih =>
    intro bs cs h1 h2
    cases bs with
    | nil => simp [atomsLe] at h1
    | cons b bs' =>
      cases cs with
      | nil => simp [atomsLe] at h2
      | cons c cs' =>
        simp only [atomsLe, Bool.or_eq_true, Bool.and_eq_true, beq_iff_eq] at h1 h2 ⊢
        rcases h1 with h1 | ⟨rfl, h1r⟩
        · rcases h2 with h2 | ⟨rfl, h2r⟩
          · exact Or.inl (atomLt_trans _ _ _ h1 h2)
          · exact Or.inl h1
        · rcases h2 with h2 | ⟨rfl, h2r⟩
          · exact Or.inl h2
          · exact Or.inr ⟨rfl, ih bs' cs' h1r h2r⟩

/-- Totality of the lexicographic key order. -/
theorem atomsLe_total : ∀ as bs : List Atom, (atomsLe as bs || atomsLe bs as) = true := by
  intro as
  induction as with
  | nil => intro bs; rfl
  | cons a as' ih =>
    intro bs
    cases bs with
    | nil => simp [atomsLe]
    | cons b bs' =>
      rcases atomLt_or_eq_or_gt a b with h | rfl | h
      · simp [atomsLe, h]
      · have htot := ih bs'
        simp only [atomsLe, Bool.or_eq_true, Bool.and_eq_true, beq_iff_eq] at htot ⊢
        rcases htot with h' | h'
        · exact Or.inl (Or.inr ⟨trivial, h'⟩)
        · exact Or.inr (Or.inr ⟨trivial, h'⟩)
      · simp [atomsLe, h]

/-- The keyed comparator is transitive for either order value. -/
theorem sortCmp_trans {α : Type} (f : α → List Atom) (order : String) :
    ∀ a b c : α, sortCmp f order a b = true → sortCmp f order b c = true →
      sortCmp f order a c = true := by
  intro a b c h1 h2
  unfold sortCmp at h1 h2 ⊢
  by_cases h : order = "asc"
  · rw [if_pos h] at h1 h2 ⊢
    exact atomsLe_trans _ _ _ h2 h1
  · rw [if_neg h] at h1 h2 ⊢
    exact atomsLe_trans _ _ _ h1 h2

/-- The keyed comparator is total for either order value. -/
theorem sortCmp_total {α : Type} (f : α → List Atom) (order : String) :
    ∀ a b : α, (sortCmp f order a b || sortCmp f order b a) = true := by
  intro a b
  unfold sortCmp
  by_cases h : order = "asc"
  · rw [if_pos h, if_pos h]
    exact atomsLe_total _ _
  · rw [if_neg h, if_neg h]
    exact atomsLe_total _ _

/-- Every cluster key extractor ends in the id: equal keys force equal
identity. -/
theorem clusterKey_ends_in_id (key : String) (fc : Cluster → List Atom)
    (hc : ListClusters.supported_sort_fields key = some fc) :
    ∀ a b : Cluster, fc a = fc b → a.id = b.id := by
  unfold ListClusters.supported_sort_fields at hc
  split at hc <;>
    first
      | exact Option.noConfusion hc
      | (injection hc with hfc
         subst hfc
         intro a b hab
         simp only [List.cons.injEq, Atom.str.injEq, Atom.nat.injEq, and_true] at hab
         exact hab.2.2)

/-- Every provisioner key extractor ends in the id. -/
theorem provisionerKey_ends_in_id (key : String) (fp : Provisioner → List Atom)
    (hp : ListProvisioners.supported_sort_fields key = some fp) :
    ∀ a b : Provisioner, fp a = fp b → a.id = b.id := by
  unfold ListProvisioners.supported_sort_fields at hp
  split at hp <;>
    first
      | exact Option.noConfusion hp
      | (injection hp with hfp
         subst hfp
         intro a b hab
         simp only [List.cons.injEq, Atom.str.injEq, Atom.nat.injEq, and_true] at hab
         first
           | exact hab.2.2
           | exact hab.2)

/-- C7: for every supported sort key and order value, sorting twice equals
sorting once (for clusters and provisioners alike), and the composite key
extractors are injective up to object identity — no two objects with
distinct ids compare equal, because every extractor tuple ends in the
id. -/
theorem sort_objects_idempotent_total (key1 key2 order : String)
    (fc : Cluster → List Atom) (fp : Provisioner → List Atom)
    (cobjects : List Cluster) (pobjects : List Provisioner)
    (hc : ListClusters.supported_sort_fields key1 = some fc)
    (hp : ListProvisioners.supported_sort_fields key2 = some fp) :
    (∃ cs, ListClusters.sort_objects cobjects key1 order = some cs ∧
      ListClusters.sort_objects cs key1 order = some cs) ∧
    (∃ ps, ListProvisioners.sort_objects pobjects key2 order = some ps ∧
      ListProvisioners.sort_objects ps key2 order = some ps) ∧
    (∀ a b : Cluster, fc a = fc b → a.id = b.id) ∧
    (∀ a b : Provisioner, fp a = fp b → a.id = b.id) := by
  refine ⟨⟨cobjects.mergeSort (sortCmp fc order), ?_, ?_⟩,
    ⟨pobjects.mergeSort (sortCmp fp order), ?_, ?_⟩,
    clusterKey_ends_in_id key1 fc hc, provisionerKey_ends_in_id key2 fp hp⟩
  · simp [ListClusters.sort_objects, hc]
  · simp [ListClusters.sort_objects, hc,
      List.mergeSort_of_sorted
        (List.sorted_mergeSort (sortCmp_trans fc order) (sortCmp_total fc order) cobjects)]
  · simp [ListProvisioners.sort_objects, hp]
  · simp [ListProvisioners.sort_objects, hp,
      List.mergeSort_of_sorted
        (List.sorted_mergeSort (sortCmp_trans fp order) (sortCmp_total fp order) pobjects)]

/-- C10: with order equal to the string `asc` the supported sorts return
the objects in descending composite-key order, and any other order value —
`desc` included — returns ascending key order: the order parameter is
inverted relative to its conventional meaning (`reverse=order == 'asc'` in
the source). -/
theorem sort_objects_order_inverted (key1 key2 order : String)
    (fc : Cluster → List Atom) (fp : Provisioner → List Atom)
    (cobjects : List Cluster) (pobjects : List Provisioner)
    (hc : ListClusters.supported_sort_fields key1 = some fc)
    (hp : ListProvisioners.supported_sort_fields key2 = some fp) :
    (∃ cs, ListClusters.sort_objects cobjects key1 "asc" = some cs ∧
      cs.Perm cobjects ∧ cs.Pairwise (fun a b => atomsLe (fc b) (fc a) = true)) ∧
    (order ≠ "asc" →
      ∃ cs, ListClusters.sort_objects cobjects key1 order = some cs ∧
        cs.Perm cobjects ∧ cs.Pairwise (fun a b => atomsLe (fc a) (fc b) = true)) ∧
    (∃ ps, ListProvisioners.sort_objects pobjects key2 "asc" = some ps ∧
      ps.Perm pobjects ∧ ps.Pairwise (fun a b => atomsLe (fp b) (fp a) = true)) ∧
    (order ≠ "asc" →
      ∃ ps, ListProvisioners.sort_objects pobjects key2 order = some ps ∧
        ps.Perm pobjects ∧ ps.Pairwise (fun a b => atomsLe (fp a) (fp b) = true)) := by
  refine ⟨⟨cobjects.mergeSort (sortCmp fc "asc"), ?_, ?_, ?_⟩, ?_,
    ⟨pobjects.mergeSort (sortCmp fp "asc"), ?_, ?_, ?_⟩, ?_⟩
  · simp [ListClusters.sort_objects, hc]
  · exact List.mergeSort_perm cobjects (sortCmp fc "asc")
  · refine (List.sorted_mergeSort (sortCmp_trans fc "asc") (sortCmp_total fc "asc")
      cobjects).imp ?_
    intro a b hab
    simpa [sortCmp] using hab
  · intro ho
    refine ⟨cobjects.mergeSort (sortCmp fc order), ?_, ?_, ?_⟩
    · simp [ListClusters.sort_objects, hc]
    · exact List.mergeSort_perm cobjects (sortCmp fc order)
    · refine (List.sorted_mergeSort (sortCmp_trans fc order) (sortCmp_total fc order)
        cobjects).imp ?_
      intro a b hab
      simpa [sortCmp, if_neg ho] using hab
  · simp [ListProvisioners.sort_objects, hp]
  · exact List.mergeSort_perm pobjects (sortCmp fp "asc")
  · refine (List.sorted_mergeSort (sortCmp_trans fp "asc") (sortCmp_total fp "asc")
      pobjects).imp ?_
    intro a b hab
    simpa [sortCmp] using hab
  · intro ho
    refine ⟨pobjects.mergeSort (sortCmp fp order), ?_, ?_, ?_⟩
    · simp [ListProvisioners.sort_objects, hp]
    · exact List.mergeSort_perm pobjects (sortCmp fp order)
    · refine (List.sorted_mergeSort (sortCmp_trans fp order) (sortCmp_total fp order)
        pobjects).imp ?_
      intro a b hab
      simpa [sortCmp, if_neg ho] using hab

/-- Witness for C7 at the name key and descending order on concrete
fixtures: both sorts produce a result. -/
theorem sort_objects_idempotent_total_witness :
    (ListClusters.sort_objects sortFixtureClusters "name" "desc").isSome = true ∧
    (ListProvisioners.sort_objects sortFixtureProvisioners "name" "desc").isSome = true := by
  obtain ⟨⟨cs, h1, _⟩, ⟨ps, h2, _⟩, _, _⟩ :=
    sort_objects_idempotent_total "name" "name" "desc" _ _
      sortFixtureClusters sortFixtureProvisioners rfl rfl
  exact ⟨by rw [h1]; rfl, by rw [h2]; rfl⟩

/-- Witness for C10 at the name key on concrete fixtures, for the inverted
`asc` order and the ordinary `desc` order. -/
theorem sort_objects_order_inverted_witness :
    (ListClusters.sort_objects sortFixtureClusters "name" "asc").isSome = true ∧
    (ListClusters.sort_objects sortFixtureClusters "name" "desc").isSome = true := by
  have h := sort_objects_order_inverted "name" "name" "desc" _ _
    sortFixtureClusters sortFixtureProvisioners rfl rfl
  obtain ⟨⟨cs, h1, _, _⟩, hno, _, _⟩ := h
  obtain ⟨cs', h2, _, _⟩ := hno (by decide)
  exact ⟨by rw [h1]; rfl, by rw [h2]; rfl⟩
